import Mathlib

/-!
Shallow embedding of the local countdown-timer state machine and the
response-code predicate of `pyvesync` (`src/pyvesync/helpers.py`).

The Python `Timer` dataclass stores `timer_duration`, `action`, `id`,
a private status string `_status`, a private remaining-seconds counter
`_remain`, and an optional unix timestamp `update_time`.  Wall-clock reads
(`int(time.time())`) are modelled by an explicit clock `clk : Nat → Int`
together with a running sample index: each place the Python code calls
`time.time()` consumes the next sample.  Operations return the mutated
timer together with the next sample index (and, for the status setter,
a flag recording whether `ValueError` was raised).
-/

/-- A wall clock: sample `i` is the value of the `i`-th `int(time.time())` call. -/
def Clock : Type := Nat → Int

/-- State of `pyvesync.helpers.Timer` (fields as in the Python dataclass). -/
structure Timer where
  timer_duration : Int
  action : String
  id : Int
  _status : String
  _remain : Int
  update_time : Option Int
  deriving DecidableEq, Repr

/-- Construction of the dataclass: `__post_init__` sets `_remain` from the
optional `remaining` argument, defaulting to `timer_duration`; `_status`
defaults to `"active"`.  The `update_time` default `int(time.time())` is a
dataclass field default, evaluated ONCE at class definition (module import):
`t0` is that import-time sample, shared by every default-constructed timer,
not the construction instant — construction itself reads no clock.  (The
class docstring instead documents `update_time` as defaulting to `None`.) -/
def mkTimer (d : Int) (a : String) (i : Int) (r : Option Int) (t0 : Int) : Timer :=
  { timer_duration := d
    action := a
    id := i
    _status := "active"
    _remain := match r with
      | some v => v
      | none => d
    update_time := some t0 }

/-- `Timer._seconds_since_check`: `0` when `update_time` is `None`, otherwise
`int(time.time()) - update_time` (consuming one clock sample). -/
def Timer.secondsSinceCheck (clk : Clock) (n : Nat) (t : Timer) : Int × Nat :=
  match t.update_time with
  | none => (0, n)
  | some u => (clk n - u, n + 1)

/-- `Timer.end`: unconditionally set `_status = 'done'`, `_remain = 0`,
`update_time = None`. -/
def Timer.endT (t : Timer) : Timer :=
  { t with _status := "done", _remain := 0, update_time := none }

/-- `Timer._internal_update`, with Python's evaluation order made explicit:
the paused branch clears `update_time` and returns without touching the
clock; the done-check short-circuits (`_status == 'done'` is tested before
`_seconds_since_check` samples the clock); the active branch samples the
clock again for the decrement and once more for the new `update_time`. -/
def Timer.internalUpdate (clk : Clock) (n : Nat) (t : Timer) : Timer × Nat :=
  if t._status = "paused" then
    ({ t with update_time := none }, n)
  else
    let condN : Bool × Nat :=
      if t._status = "done" then (true, n)
      else
        let en := t.secondsSinceCheck clk n
        (decide (en.1 > t._remain) && decide (t._status = "active"), en.2)
    let t1 : Timer := if condN.1 then t.endT else t
    if t1._status = "active" then
      let en2 := t1.secondsSinceCheck clk condN.2
      (({ t1 with _remain := t1._remain - en2.1, update_time := some (clk en2.2) }), en2.2 + 1)
    else
      (t1, condN.2)

/-- `Timer.status` getter: returns the stored `_status`, with no
reconciliation and no clock access. -/
def Timer.getStatus (t : Timer) : String := t._status

/-- `Timer.status` setter: raises `ValueError` (flag `true`, state unchanged)
on a status outside the three recognized strings; otherwise reconciles, routes
to `end` when the target or the current status is `done`, sets `update_time`
on `paused → active`, clears it on `active → paused`, and stores the status. -/
def Timer.setStatus (clk : Clock) (n : Nat) (t : Timer) (s : String) :
    Timer × Nat × Bool :=
  if s ≠ "active" ∧ s ≠ "paused" ∧ s ≠ "done" then
    (t, n, true)
  else
    let tn := t.internalUpdate clk n
    let t1 := tn.1
    if s = "done" ∨ t1._status = "done" then
      (t1.endT, tn.2, false)
    else
      let t2n : Timer × Nat :=
        if t1._status = "paused" ∧ s = "active" then
          ({ t1 with update_time := some (clk tn.2) }, tn.2 + 1)
        else
          (t1, tn.2)
      let t3 : Timer :=
        if t2n.1._status = "active" ∧ s = "paused" then
          { t2n.1 with update_time := none }
        else
          t2n.1
      ({ t3 with _status := s }, t2n.2, false)

/-- `Timer.time_remaining` getter: reconcile, then return `_remain`
(also returning the mutated state and clock index). -/
def Timer.timeRemaining (clk : Clock) (n : Nat) (t : Timer) : Int × Timer × Nat :=
  let tn := t.internalUpdate clk n
  (tn.1._remain, tn.1, tn.2)

/-- `Timer.time_remaining` setter: `remaining <= 0` forces `end`; otherwise
reconcile, snap `_remain` to `0` when already done, else store `remaining`. -/
def Timer.setRemaining (clk : Clock) (n : Nat) (t : Timer) (r : Int) : Timer × Nat :=
  if r ≤ 0 then
    (t.endT, n)
  else
    let tn := t.internalUpdate clk n
    if tn.1._status = "done" then
      ({ tn.1 with _remain := 0 }, tn.2)
    else
      ({ tn.1 with _remain := r }, tn.2)

/-- `Timer.start`: no-op unless `_status == 'paused'`; otherwise set
`update_time` to a clock sample, then assign `status = 'active'` through the
setter. -/
def Timer.startT (clk : Clock) (n : Nat) (t : Timer) : Timer × Nat :=
  if t._status ≠ "paused" then
    (t, n)
  else
    let t1 : Timer := { t with update_time := some (clk n) }
    let r := t1.setStatus clk (n + 1) "active"
    (r.1, r.2.1)

/-- `Timer.pause`: reconcile; return if the (reconciled) status is `done`;
otherwise assign `status = 'paused'` through the setter and clear
`update_time`. -/
def Timer.pauseT (clk : Clock) (n : Nat) (t : Timer) : Timer × Nat :=
  let tn := t.internalUpdate clk n
  if tn.1._status = "done" then
    (tn.1, tn.2)
  else
    let r := tn.1.setStatus clk tn.2 "paused"
    ({ r.1 with update_time := none }, r.2.1)

/-- `Timer.update(time_remaining=, status=)`: apply `time_remaining` setter
when given, then the `status` setter when given (whose `ValueError` flag is
propagated; the `time_remaining` mutation survives a subsequent raise). -/
def Timer.updateT (clk : Clock) (n : Nat) (t : Timer) (r : Option Int)
    (s : Option String) : Timer × Nat × Bool :=
  let t1n : Timer × Nat :=
    match r with
    | none => (t, n)
    | some rv => t.setRemaining clk n rv
  match s with
  | none => (t1n.1, t1n.2, false)
  | some sv => t1n.1.setStatus clk t1n.2 sv

/-- `Timer.running`: `time_remaining > 0 and status == 'active'`
(the `time_remaining` read reconciles). -/
def Timer.runningQ (clk : Clock) (n : Nat) (t : Timer) : Bool × Timer × Nat :=
  let rtn := t.timeRemaining clk n
  (decide (rtn.1 > 0) && decide (rtn.2.1._status = "active"), rtn.2.1, rtn.2.2)

/-- `Timer.paused`: `status == 'paused'` (a pure read). -/
def Timer.pausedQ (t : Timer) : Bool := t._status = "paused"

/-- `Timer.done`: `time_remaining <= 0 or _status == 'done'`
(the `time_remaining` read reconciles). -/
def Timer.doneQ (clk : Clock) (n : Nat) (t : Timer) : Bool × Timer × Nat :=
  let rtn := t.timeRemaining clk n
  (decide (rtn.1 ≤ 0) || decide (rtn.2.1._status = "done"), rtn.2.1, rtn.2.2)

/-! ## Reconciliation case lemmas -/

theorem Timer.iu_paused (clk : Clock) (n : Nat) (t : Timer) (h : t._status = "paused") :
    t.internalUpdate clk n = ({ t with update_time := none }, n) := by
  simp [Timer.internalUpdate, h]

theorem Timer.iu_done (clk : Clock) (n : Nat) (t : Timer) (h : t._status = "done") :
    t.internalUpdate clk n = (t.endT, n) := by
  simp [Timer.internalUpdate, h, Timer.endT]

theorem Timer.iu_active_expired (clk : Clock) (n : Nat) (t : Timer) (u : Int)
    (h : t._status = "active") (hu : t.update_time = some u)
    (hgt : clk n - u > t._remain) :
    t.internalUpdate clk n = (t.endT, n + 1) := by
  simp [Timer.internalUpdate, h, Timer.secondsSinceCheck, hu, hgt, Timer.endT]

theorem Timer.iu_active_tick (clk : Clock) (n : Nat) (t : Timer) (u : Int)
    (h : t._status = "active") (hu : t.update_time = some u)
    (hle : ¬ clk n - u > t._remain) :
    t.internalUpdate clk n =
      ({ t with _remain := t._remain - (clk (n + 1) - u),
                update_time := some (clk (n + 2)) }, n + 3) := by
  simp [Timer.internalUpdate, h, Timer.secondsSinceCheck, hu, hle]

theorem Timer.iu_active_none_expired (clk : Clock) (n : Nat) (t : Timer)
    (h : t._status = "active") (hu : t.update_time = none) (hneg : t._remain < 0) :
    t.internalUpdate clk n = (t.endT, n) := by
  simp [Timer.internalUpdate, h, Timer.secondsSinceCheck, hu, hneg, Timer.endT]

theorem Timer.iu_active_none_tick (clk : Clock) (n : Nat) (t : Timer)
    (h : t._status = "active") (hu : t.update_time = none) (hge : 0 ≤ t._remain) :
    t.internalUpdate clk n = ({ t with update_time := some (clk n) }, n + 1) := by
  have hng : ¬ (0 : Int) > t._remain := not_lt.mpr hge
  simp [Timer.internalUpdate, h, Timer.secondsSinceCheck, hu, hng]

/-! ## Operations, reachable states and the data-model invariant -/

/-- The operations of the Timer interface (spec §4.1). -/
inductive TOp where
  | opSetStatus (s : String)
  | opGetStatus
  | opGetRemaining
  | opSetRemaining (r : Int)
  | opEnd
  | opStart
  | opPause
  | opUpdate (r : Option Int) (s : Option String)
  | opRunning
  | opPaused
  | opDone

/-- Post-state of one Timer operation executed at wall-clock time `now`
(every sample during the operation reads `now`).  A `ValueError` raised by
the status setter leaves the already-performed mutations in place, as in
Python. -/
def applyOp (now : Int) (op : TOp) (t : Timer) : Timer :=
  match op with
  | .opSetStatus s => (t.setStatus (fun _ => now) 0 s).1
  | .opGetStatus => t
  | .opGetRemaining => (t.timeRemaining (fun _ => now) 0).2.1
  | .opSetRemaining r => (t.setRemaining (fun _ => now) 0 r).1
  | .opEnd => t.endT
  | .opStart => (t.startT (fun _ => now) 0).1
  | .opPause => (t.pauseT (fun _ => now) 0).1
  | .opUpdate r s => (t.updateT (fun _ => now) 0 r s).1
  | .opRunning => (t.runningQ (fun _ => now) 0).2.1
  | .opPaused => t
  | .opDone => (t.doneQ (fun _ => now) 0).2.1

/-- States reachable from a freshly constructed Timer through §4.1
operations, executed at nondecreasing wall-clock times.  `Reachable n t`
records that the latest operation (or the construction) happened at time
`n`. -/
inductive Reachable : Int → Timer → Prop where
  | init (d : Int) (a : String) (i t0 : Int) (hd : 0 < d) :
      Reachable t0 (mkTimer d a i none t0)
  | step {n : Int} {t : Timer} (op : TOp) (m : Int) :
      Reachable n t → n ≤ m → Reachable m (applyOp m op t)

/-- Data-model invariant of spec §3: `done` forces `remaining = 0` with no
timestamp, `paused` carries no timestamp, and `remaining` is never
negative. -/
def TimerInv (t : Timer) : Prop :=
  (t._status = "done" → t._remain = 0 ∧ t.update_time = none) ∧
  (t._status = "paused" → t.update_time = none) ∧
  0 ≤ t._remain

/-- The stored status is one of the three recognized strings. -/
def StatusOk (t : Timer) : Prop :=
  t._status = "active" ∨ t._status = "paused" ∨ t._status = "done"

/-- Induction-strengthened invariant: the data-model invariant, a recognized
status, and every stored timestamp bounded by the current time. -/
def InvAux (n : Int) (t : Timer) : Prop :=
  TimerInv t ∧ StatusOk t ∧ ∀ u, t.update_time = some u → u ≤ n

theorem Timer.endT_invAux (m : Int) (t : Timer) : InvAux m t.endT := by
  simp [InvAux, TimerInv, StatusOk, Timer.endT]

theorem invAux_mono {n m : Int} {t : Timer} (h : InvAux n t) (hnm : n ≤ m) :
    InvAux m t := by
  obtain ⟨hi, hok, hb⟩ := h
  exact ⟨hi, hok, fun u hu => le_trans (hb u hu) hnm⟩

theorem mkTimer_invAux (d : Int) (a : String) (i t0 : Int) (hd : 0 < d) :
    InvAux t0 (mkTimer d a i none t0) := by
  simp [InvAux, TimerInv, StatusOk, mkTimer]
  omega

theorem Timer.iu_preserves (m : Int) (k : Nat) (t : Timer) (h : InvAux m t) :
    InvAux m ((t.internalUpdate (fun _ => m) k).1) := by
  obtain ⟨⟨hd, hp, hr⟩, hok, hb⟩ := h
  rcases hok with ha | hpa | hdo
  · cases hu : t.update_time with
    | some u =>
      by_cases hgt : (fun _ : Nat => m) k - u > t._remain
      · rw [Timer.iu_active_expired _ _ _ _ ha hu hgt]
        exact Timer.endT_invAux m t
      · rw [Timer.iu_active_tick _ _ _ _ ha hu hgt]
        refine ⟨⟨?_, ?_, ?_⟩, ?_, ?_⟩
        · intro hc; simp [ha] at hc
        · intro hc; simp [ha] at hc
        · simp only at hgt ⊢
          omega
        · simp [StatusOk, ha]
        · intro v hv; simp at hv; omega
    | none =>
      rw [Timer.iu_active_none_tick _ _ _ ha hu hr]
      refine ⟨⟨?_, ?_, ?_⟩, ?_, ?_⟩
      · intro hc; simp [ha] at hc
      · intro hc; simp [ha] at hc
      · exact hr
      · simp [StatusOk, ha]
      · intro v hv; simp at hv; omega
  · rw [Timer.iu_paused _ _ _ hpa]
    refine ⟨⟨?_, ?_, ?_⟩, ?_, ?_⟩
    · intro hc; simp [hpa] at hc
    · intro _; rfl
    · exact hr
    · simp [StatusOk, hpa]
    · intro v hv; simp at hv
  · rw [Timer.iu_done _ _ _ hdo]
    exact Timer.endT_invAux m t

theorem Timer.setStatus_preserves (m : Int) (k : Nat) (t : Timer) (s : String)
    (h : InvAux m t) : InvAux m ((t.setStatus (fun _ => m) k s).1) := by
  by_cases hv : s ≠ "active" ∧ s ≠ "paused" ∧ s ≠ "done"
  · simpa [Timer.setStatus, hv] using h
  · have h1 := Timer.iu_preserves m k t h
    set T1 := (t.internalUpdate (fun _ => m) k).1 with hT1
    obtain ⟨⟨hd1, hp1, hr1⟩, hok1, hb1⟩ := h1
    simp only [Timer.setStatus, if_neg hv]
    by_cases hsd : s = "done" ∨ T1._status = "done"
    · simp only [← hT1, if_pos hsd]
      exact Timer.endT_invAux m _
    · simp only [← hT1, if_neg hsd]
      push_neg at hsd
      obtain ⟨hsd1, hsd2⟩ := hsd
      have hs : s = "active" ∨ s = "paused" := by tauto
      rcases hok1 with ha1 | hp1' | hd1'
      · rcases hs with hsa | hsp
        · subst hsa
          simp only [ha1]
          refine ⟨⟨?_, ?_, ?_⟩, ?_, ?_⟩ <;>
            simp [TimerInv, StatusOk, ha1, hr1]
          exact hb1
        · subst hsp
          simp only [ha1]
          refine ⟨⟨?_, ?_, ?_⟩, ?_, ?_⟩ <;>
            simp [TimerInv, StatusOk, ha1, hr1]
      · rcases hs with hsa | hsp
        · subst hsa
          simp only [hp1']
          refine ⟨⟨?_, ?_, ?_⟩, ?_, ?_⟩ <;>
            simp [TimerInv, StatusOk, hp1', hr1]
        · subst hsp
          simp only [hp1']
          refine ⟨⟨?_, ?_, ?_⟩, ?_, ?_⟩ <;>
            simp [TimerInv, StatusOk, hp1', hr1, hp1 hp1']
      · exact absurd hd1' hsd2

theorem invAux_clear_update {m : Int} {x : Timer} (h : InvAux m x) :
    InvAux m { x with update_time := none } := by
  obtain ⟨⟨hd, hp, hr⟩, hok, hb⟩ := h
  refine ⟨⟨?_, ?_, ?_⟩, ?_, ?_⟩ <;> simp [TimerInv, StatusOk, hr]
  · intro hc; exact (hd hc).1
  · exact hok

theorem Timer.setRemaining_preserves (m : Int) (k : Nat) (t : Timer) (r : Int)
    (h : InvAux m t) : InvAux m ((t.setRemaining (fun _ => m) k r).1) := by
  by_cases hr0 : r ≤ 0
  · simp only [Timer.setRemaining, if_pos hr0]
    exact Timer.endT_invAux m t
  · have h1 := Timer.iu_preserves m k t h
    set T1 := (t.internalUpdate (fun _ => m) k).1 with hT1
    obtain ⟨⟨hd1, hp1, hr1⟩, hok1, hb1⟩ := h1
    simp only [Timer.setRemaining, if_neg hr0]
    by_cases hdn : T1._status = "done"
    · simp only [← hT1, if_pos hdn]
      refine ⟨⟨?_, ?_, ?_⟩, ?_, ?_⟩ <;>
        simp [TimerInv, StatusOk, hdn, (hd1 hdn).2]
    · simp only [← hT1, if_neg hdn]
      refine ⟨⟨?_, ?_, ?_⟩, ?_, ?_⟩
      · intro hc; exact absurd hc hdn
      · intro hc; exact hp1 hc
      · show (0 : Int) ≤ r
        omega
      · exact hok1
      · exact hb1

theorem Timer.startT_paused (clk : Clock) (n : Nat) (t : Timer)
    (h : t._status = "paused") :
    t.startT clk n =
      ({ t with update_time := some (clk (n + 1)), _status := "active" }, n + 2) := by
  simp [Timer.startT, h, Timer.setStatus, Timer.internalUpdate]

theorem Timer.startT_preserves (m : Int) (k : Nat) (t : Timer)
    (h : InvAux m t) : InvAux m ((t.startT (fun _ => m) k).1) := by
  by_cases hp : t._status = "paused"
  · rw [Timer.startT_paused _ _ _ hp]
    obtain ⟨⟨hd, hpp, hr⟩, hok, hb⟩ := h
    refine ⟨⟨?_, ?_, ?_⟩, ?_, ?_⟩ <;> simp [TimerInv, StatusOk, hr]
  · simp only [Timer.startT, if_pos hp]
    exact h

theorem Timer.pauseT_preserves (m : Int) (k : Nat) (t : Timer)
    (h : InvAux m t) : InvAux m ((t.pauseT (fun _ => m) k).1) := by
  have h1 := Timer.iu_preserves m k t h
  set T1 := (t.internalUpdate (fun _ => m) k).1 with hT1
  simp only [Timer.pauseT]
  by_cases hdn : T1._status = "done"
  · simp only [← hT1, if_pos hdn]
    exact h1
  · simp only [← hT1, if_neg hdn]
    exact invAux_clear_update (Timer.setStatus_preserves m _ T1 "paused" h1)

theorem Timer.updateT_preserves (m : Int) (k : Nat) (t : Timer) (r : Option Int)
    (s : Option String) (h : InvAux m t) :
    InvAux m ((t.updateT (fun _ => m) k r s).1) := by
  cases r with
  | none =>
    cases s with
    | none => simpa [Timer.updateT] using h
    | some sv =>
      simpa [Timer.updateT] using Timer.setStatus_preserves m k t sv h
  | some rv =>
    cases s with
    | none => simpa [Timer.updateT] using Timer.setRemaining_preserves m k t rv h
    | some sv =>
      simpa [Timer.updateT] using
        Timer.setStatus_preserves m _ _ sv (Timer.setRemaining_preserves m k t rv h)

theorem applyOp_preserves (now : Int) (op : TOp) (t : Timer) (h : InvAux now t) :
    InvAux now (applyOp now op t) := by
  cases op with
  | opSetStatus s => exact Timer.setStatus_preserves now 0 t s h
  | opGetStatus => exact h
  | opGetRemaining =>
    simpa [Timer.timeRemaining] using Timer.iu_preserves now 0 t h
  | opSetRemaining r => exact Timer.setRemaining_preserves now 0 t r h
  | opEnd => exact Timer.endT_invAux now t
  | opStart => exact Timer.startT_preserves now 0 t h
  | opPause => exact Timer.pauseT_preserves now 0 t h
  | opUpdate r s => exact Timer.updateT_preserves now 0 t r s h
  | opRunning =>
    simpa [Timer.runningQ, Timer.timeRemaining] using Timer.iu_preserves now 0 t h
  | opPaused => exact h
  | opDone =>
    simpa [Timer.doneQ, Timer.timeRemaining] using Timer.iu_preserves now 0 t h

theorem reachable_invAux {n : Int} {t : Timer} (h : Reachable n t) : InvAux n t := by
  induction h with
  | init d a i t0 hd => exact mkTimer_invAux d a i t0 hd
  | step op m hr hle ih => exact applyOp_preserves m op _ (invAux_mono ih hle)

/-! ## Terminality of the done state -/

theorem Timer.setStatus_done_stable (clk : Clock) (n : Nat) (t : Timer)
    (h : t._status = "done") (s : String) :
    ((t.setStatus clk n s).1)._status = "done" := by
  by_cases hv : s ≠ "active" ∧ s ≠ "paused" ∧ s ≠ "done"
  · simp [Timer.setStatus, hv, h]
  · simp [Timer.setStatus, hv, Timer.iu_done clk n t h, Timer.endT]

theorem Timer.setRemaining_done_stable (clk : Clock) (n : Nat) (t : Timer)
    (h : t._status = "done") (r : Int) :
    ((t.setRemaining clk n r).1)._status = "done" := by
  by_cases hr0 : r ≤ 0
  · simp [Timer.setRemaining, hr0, Timer.endT]
  · simp [Timer.setRemaining, hr0, Timer.iu_done clk n t h, Timer.endT]

theorem Timer.updateT_done_stable (clk : Clock) (n : Nat) (t : Timer)
    (h : t._status = "done") (r : Option Int) (s : Option String) :
    ((t.updateT clk n r s).1)._status = "done" := by
  cases r with
  | none =>
    cases s with
    | none => simpa [Timer.updateT] using h
    | some sv => simpa [Timer.updateT] using Timer.setStatus_done_stable clk n t h sv
  | some rv =>
    cases s with
    | none => simpa [Timer.updateT] using Timer.setRemaining_done_stable clk n t h rv
    | some sv =>
      have h1 := Timer.setRemaining_done_stable clk n t h rv
      simpa [Timer.updateT] using
        Timer.setStatus_done_stable clk _ (t.setRemaining clk n rv).1 h1 sv

/-- C3: the `done` state is terminal: starting from any Timer whose status is
`done`, every §4.1 operation — `set_status` with any argument, `set_remaining`
with any argument, `start`, `pause`, `end`, `update`, and every read
(`status`, `time_remaining`, `running`, `paused`, `done`) — leaves the status
`done`; it never becomes `active` or `paused` again. -/
theorem C3_done_terminal (t : Timer) (clk : Clock) (n : Nat)
    (hdone : t._status = "done") :
    (∀ s, ((t.setStatus clk n s).1)._status = "done") ∧
    (∀ r, ((t.setRemaining clk n r).1)._status = "done") ∧
    ((t.startT clk n).1._status = "done") ∧
    ((t.pauseT clk n).1._status = "done") ∧
    (t.endT._status = "done") ∧
    (∀ r s, ((t.updateT clk n r s).1)._status = "done") ∧
    (((t.timeRemaining clk n).2.1)._status = "done") ∧
    (t.getStatus = "done") ∧
    ((t.runningQ clk n).2.1._status = "done") ∧
    ((t.doneQ clk n).2.1._status = "done") := by
  refine ⟨fun s => Timer.setStatus_done_stable clk n t hdone s,
    fun r => Timer.setRemaining_done_stable clk n t hdone r,
    ?_, ?_, rfl, fun r s => Timer.updateT_done_stable clk n t hdone r s, ?_, hdone, ?_, ?_⟩
  · simp [Timer.startT, hdone]
  · simp [Timer.pauseT, Timer.iu_done clk n t hdone, Timer.endT]
  · simp [Timer.timeRemaining, Timer.iu_done clk n t hdone, Timer.endT]
  · simp [Timer.runningQ, Timer.timeRemaining, Timer.iu_done clk n t hdone, Timer.endT]
  · simp [Timer.doneQ, Timer.timeRemaining, Timer.iu_done clk n t hdone, Timer.endT]

/-- Witness for C3 at a concrete terminated timer. -/
theorem C3_done_terminal_witness :
    ((mkTimer 10 "off" 1 none 0).endT._status = "done") ∧
    ((((mkTimer 10 "off" 1 none 0).endT.setStatus (fun _ => 7) 0 "active").1)._status
      = "done") ∧
    ((((mkTimer 10 "off" 1 none 0).endT.setRemaining (fun _ => 7) 0 50).1)._status
      = "done") ∧
    (((mkTimer 10 "off" 1 none 0).endT.startT (fun _ => 7) 0).1._status = "done") := by
  have h := C3_done_terminal (mkTimer 10 "off" 1 none 0).endT (fun _ => 7) 0 (by decide)
  exact ⟨by decide, h.1 "active", h.2.1 50, h.2.2.1⟩

/-- C4 counterexample: from a freshly constructed Timer of duration 10,
`set_remaining(50)` (a §4.1 operation) produces a reachable state whose
`remaining` is 50, strictly above `duration`; the claimed bound
`remaining ∈ [0, duration]` fails on reachable states. -/
theorem C4_counterexample :
    Reachable 0 (applyOp 0 (TOp.opSetRemaining 50) (mkTimer 10 "off" 1 none 0)) ∧
    (applyOp 0 (TOp.opSetRemaining 50) (mkTimer 10 "off" 1 none 0))._remain = 50 ∧
    (applyOp 0 (TOp.opSetRemaining 50) (mkTimer 10 "off" 1 none 0)).timer_duration = 10 ∧
    ¬ ((applyOp 0 (TOp.opSetRemaining 50) (mkTimer 10 "off" 1 none 0))._remain ≤
        (applyOp 0 (TOp.opSetRemaining 50) (mkTimer 10 "off" 1 none 0)).timer_duration) := by
  refine ⟨Reachable.step (TOp.opSetRemaining 50) 0
      (Reachable.init 10 "off" 1 0 (by decide)) le_rfl, ?_, ?_, ?_⟩ <;> decide

/-- C4 (amended): every state reachable from a freshly constructed Timer by
§4.1 operations at nondecreasing wall-clock times satisfies the data-model
invariants with the duration upper bound dropped: `done` implies
`remaining = 0` and no `last_update`; `paused` implies no `last_update`;
and `remaining` is never negative.  (`remaining ≤ duration` is not
preserved: `set_remaining` stores any positive value, see the
counterexample.) -/
theorem C4_invariants (n : Int) (t : Timer) (h : Reachable n t) : TimerInv t :=
  (reachable_invAux h).1

/-- Witness for C4 at a concrete reachable state. -/
theorem C4_invariants_witness :
    TimerInv (applyOp 4 TOp.opGetRemaining (mkTimer 10 "off" 1 none 0)) :=
  C4_invariants 4 _ (Reachable.step TOp.opGetRemaining 4
    (Reachable.init 10 "off" 1 0 (by decide)) (by decide))

/-- C1 counterexample: a freshly constructed Timer of duration 5 whose
elapsed wall-clock time is 100 (strictly above its remaining 5) still reads
status `"active"`, not `"done"`: the `status` getter performs no
reconciliation.  An actual reconciling read (`time_remaining`) at the same
instant yields `"done"`. -/
theorem C1_counterexample :
    (mkTimer 5 "off" 1 none 0).getStatus = "active" ∧
    ((100 : Int) - 0 > (mkTimer 5 "off" 1 none 0)._remain) ∧
    ¬ (mkTimer 5 "off" 1 none 0).getStatus = "done" ∧
    ((mkTimer 5 "off" 1 none 0).timeRemaining (fun _ => 100) 0).2.1._status = "done" := by
  decide

/-- C1 (amended): the `status` read accessor does not reconcile: it returns
the stored status unchanged; in particular, reading the status of an active
timer whose elapsed wall-clock time strictly exceeds its remaining seconds
returns `"active"`.  Reconciliation happens only through the
`time_remaining` paths, after which the status reads `"done"`. -/
theorem C1_status_read (t : Timer) (now : Int) (n : Nat) :
    t.getStatus = t._status ∧
    (∀ u, t._status = "active" → t.update_time = some u → now - u > t._remain →
      (t.getStatus = "active" ∧
        ((t.timeRemaining (fun _ => now) n).2.1).getStatus = "done")) := by
  refine ⟨rfl, fun u ha hu hgt => ⟨ha, ?_⟩⟩
  have h := Timer.iu_active_expired (fun _ => now) n t u ha hu (by simpa using hgt)
  simp [Timer.timeRemaining, h, Timer.endT, Timer.getStatus]

/-- Witness for C1's amended statement at a concrete expired-active timer. -/
theorem C1_status_read_witness :
    (mkTimer 5 "off" 1 none 0).getStatus = "active" ∧
    ((mkTimer 5 "off" 1 none 0).timeRemaining (fun _ => 100) 0).2.1.getStatus
      = "done" :=
  (C1_status_read (mkTimer 5 "off" 1 none 0) 100 0).2 0 rfl rfl (by decide)

/-- C2: the reconciliation rule, at a single wall-clock instant `now`:
a paused timer (whose timestamp is absent, as the data model guarantees) is
left unchanged; an already-done timer is (re)forced to the terminal state;
an active timer with elapsed `now - u` strictly above `remaining` transitions
to `done` with `remaining = 0` and the timestamp cleared, and otherwise has
`remaining` decremented by the elapsed time and its timestamp refreshed to
`now`; with an absent timestamp the elapsed time counts as 0.  Consequently
a fresh Timer of duration `d` read after `d + 1` elapsed seconds yields
`remaining = 0` and status `done`. -/
theorem C2_reconciliation (t : Timer) (now : Int) (n : Nat) :
    (t._status = "paused" → t.update_time = none →
      t.internalUpdate (fun _ => now) n = (t, n)) ∧
    (t._status = "done" → t.internalUpdate (fun _ => now) n = (t.endT, n)) ∧
    (∀ u, t._status = "active" → t.update_time = some u →
      (now - u > t._remain → t.internalUpdate (fun _ => now) n = (t.endT, n + 1)) ∧
      (¬ now - u > t._remain →
        t.internalUpdate (fun _ => now) n =
          ({ t with _remain := t._remain - (now - u), update_time := some now },
            n + 3))) ∧
    (t._status = "active" → t.update_time = none → 0 ≤ t._remain →
      t.internalUpdate (fun _ => now) n =
        ({ t with update_time := some now }, n + 1)) ∧
    (∀ (d : Int) (a : String) (i t0 : Int), 0 < d →
      ((mkTimer d a i none t0).timeRemaining (fun _ => t0 + d + 1) n).1 = 0 ∧
      ((mkTimer d a i none t0).timeRemaining (fun _ => t0 + d + 1) n).2.1._status
        = "done") := by
  refine ⟨?_, ?_, ?_, ?_, ?_⟩
  · intro hp hu
    rw [Timer.iu_paused (fun _ => now) n t hp]
    cases t
    simp_all
  · intro hd
    exact Timer.iu_done (fun _ => now) n t hd
  · intro u ha hu
    constructor
    · intro hgt
      exact Timer.iu_active_expired (fun _ => now) n t u ha hu (by simpa using hgt)
    · intro hle
      exact Timer.iu_active_tick (fun _ => now) n t u ha hu (by simpa using hle)
  · intro ha hu hr
    exact Timer.iu_active_none_tick (fun _ => now) n t ha hu hr
  · intro d a i t0 hd
    have hgt : (fun _ : Nat => t0 + d + 1) n - t0 > (mkTimer d a i none t0)._remain := by
      simp [mkTimer]
      omega
    have h := Timer.iu_active_expired (fun _ => t0 + d + 1) n (mkTimer d a i none t0)
      t0 rfl rfl hgt
    simp [Timer.timeRemaining, h, Timer.endT]

/-- Witness for C2: a concrete paused timer is untouched by reconciliation,
and the fresh duration-10 timer read 11 seconds later is done with 0 left. -/
theorem C2_reconciliation_witness :
    ((⟨10, "off", 1, "paused", 6, none⟩ : Timer).internalUpdate (fun _ => 5) 0 =
      (⟨10, "off", 1, "paused", 6, none⟩, 0)) ∧
    ((mkTimer 10 "off" 1 none 0).timeRemaining (fun _ => 0 + 10 + 1) 0).1 = 0 ∧
    ((mkTimer 10 "off" 1 none 0).timeRemaining (fun _ => 0 + 10 + 1) 0).2.1._status
      = "done" := by
  refine ⟨(C2_reconciliation ⟨10, "off", 1, "paused", 6, none⟩ 5 0).1 rfl rfl, ?_, ?_⟩
  · exact ((C2_reconciliation (mkTimer 10 "off" 1 none 0) 0 0).2.2.2.2 10 "off" 1 0
      (by decide)).1
  · exact ((C2_reconciliation (mkTimer 10 "off" 1 none 0) 0 0).2.2.2.2 10 "off" 1 0
      (by decide)).2

/-- C5: `set_status` raises (`ValueError`, the `InvalidValue` signal) exactly
when the requested status is outside `{active, paused, done}`, and a raise
leaves the Timer (status, remaining, timestamp) and the clock untouched.
`set_remaining` never fails: nonpositive seconds force termination instead. -/
theorem C5_set_status_failure (clk : Clock) (n : Nat) (t : Timer) (s : String) :
    ((t.setStatus clk n s).2.2 = true ↔ (s ≠ "active" ∧ s ≠ "paused" ∧ s ≠ "done")) ∧
    ((t.setStatus clk n s).2.2 = true → t.setStatus clk n s = (t, n, true)) ∧
    (∀ r : Int, r ≤ 0 → t.setRemaining clk n r = (t.endT, n)) := by
  refine ⟨?_, ?_, ?_⟩
  · by_cases hv : s ≠ "active" ∧ s ≠ "paused" ∧ s ≠ "done"
    · simp [Timer.setStatus, hv]
    · simp only [Timer.setStatus, if_neg hv]
      by_cases hsd : s = "done" ∨ (t.internalUpdate clk n).1._status = "done"
      · simp [hsd, hv]
      · simp [hsd, hv]
  · intro hf
    by_cases hv : s ≠ "active" ∧ s ≠ "paused" ∧ s ≠ "done"
    · simp [Timer.setStatus, hv]
    · exfalso
      revert hf
      simp only [Timer.setStatus, if_neg hv]
      by_cases hsd : s = "done" ∨ (t.internalUpdate clk n).1._status = "done"
      · simp [hsd]
      · simp [hsd]
  · intro r h0
    simp [Timer.setRemaining, h0]

/-- Witness for C5: `set_status("bogus")` on a concrete timer raises and
leaves the state unchanged, and `set_remaining(-3)` terminates the timer. -/
theorem C5_set_status_failure_witness :
    ((mkTimer 10 "off" 1 none 0).setStatus (fun _ => 4) 0 "bogus").2.2 = true ∧
    ((mkTimer 10 "off" 1 none 0).setStatus (fun _ => 4) 0 "bogus" =
      (mkTimer 10 "off" 1 none 0, 0, true)) ∧
    ((mkTimer 10 "off" 1 none 0).setRemaining (fun _ => 4) 0 (-3) =
      ((mkTimer 10 "off" 1 none 0).endT, 0)) := by
  have h := C5_set_status_failure (fun _ => 4) 0 (mkTimer 10 "off" 1 none 0) "bogus"
  have hf := h.1.mpr (by decide)
  exact ⟨hf, h.2.1 hf, h.2.2 (-3) (by decide)⟩

/-- C6: the claim is right and the code is wrong.  The dataclass default
`update_time = int(time.time())` is evaluated once at class definition
(module import), never at construction — contradicting the class docstring,
which documents `update_time` as defaulting to `None` — so a Timer
constructed after import carries the stale import-time stamp.  At the
failing input (duration 10, import-time stamp 0, constructed and read
immediately at time 3) `get_remaining()` returns 7, not the duration 10;
constructed 11 seconds after import it is immediately `done` with 0 left. -/
theorem C6_stale_default_bug :
    (mkTimer 10 "poweroff" 1 none 0).getStatus = "active" ∧
    ((mkTimer 10 "poweroff" 1 none 0).timeRemaining (fun _ => 3) 0).1 = 7 ∧
    ¬ ((mkTimer 10 "poweroff" 1 none 0).timeRemaining (fun _ => 3) 0).1 = 10 ∧
    ((mkTimer 10 "poweroff" 1 none 0).timeRemaining (fun _ => 11) 0).1 = 0 ∧
    ((mkTimer 10 "poweroff" 1 none 0).timeRemaining (fun _ => 11) 0).2.1._status
      = "done" := by
  decide

/-- C7: the `time_remaining` setter: nonpositive seconds force the terminal
state (exactly `end()`); positive seconds on a timer that reconciles to
`done` snap `remaining` to 0 and keep it `done` (no revival); positive
seconds on a non-done timer store them as the new `remaining`. -/
theorem C7_set_remaining (clk : Clock) (n : Nat) (t : Timer) (r : Int) :
    (r ≤ 0 → t.setRemaining clk n r = (t.endT, n)) ∧
    (0 < r → (t.internalUpdate clk n).1._status = "done" →
      (t.setRemaining clk n r).1._status = "done" ∧
      (t.setRemaining clk n r).1._remain = 0) ∧
    (0 < r → (t.internalUpdate clk n).1._status ≠ "done" →
      (t.setRemaining clk n r).1 =
        { (t.internalUpdate clk n).1 with _remain := r }) := by
  refine ⟨?_, ?_, ?_⟩
  · intro h0
    simp [Timer.setRemaining, h0]
  · intro hr hdn
    have hnle : ¬ r ≤ 0 := not_le.mpr hr
    simp [Timer.setRemaining, hnle, hdn]
  · intro hr hdn
    have hnle : ¬ r ≤ 0 := not_le.mpr hr
    simp [Timer.setRemaining, hnle, hdn]

/-- Witness for C7: `set_remaining(0)` terminates an active timer, and
`set_remaining(50)` on a done timer leaves it done with 0 remaining. -/
theorem C7_set_remaining_witness :
    ((mkTimer 10 "off" 1 none 0).setRemaining (fun _ => 0) 0 0 =
      ((mkTimer 10 "off" 1 none 0).endT, 0)) ∧
    ((mkTimer 10 "off" 1 none 0).endT.setRemaining (fun _ => 7) 0 50).1._status
      = "done" ∧
    ((mkTimer 10 "off" 1 none 0).endT.setRemaining (fun _ => 7) 0 50).1._remain
      = 0 := by
  refine ⟨(C7_set_remaining (fun _ => 0) 0 (mkTimer 10 "off" 1 none 0) 0).1
    (by decide), ?_, ?_⟩
  · exact ((C7_set_remaining (fun _ => 7) 0 (mkTimer 10 "off" 1 none 0).endT 50).2.1
      (by decide) (by decide)).1
  · exact ((C7_set_remaining (fun _ => 7) 0 (mkTimer 10 "off" 1 none 0).endT 50).2.1
      (by decide) (by decide)).2

/-- C10: when the elapsed time equals the remaining seconds exactly,
reconciliation leaves the stored status `"active"` with `remaining = 0`
(the done transition needs a strict excess); at that instant the derived
`done` predicate reads true and `running` reads false, while the stored
status — also after the predicates' own reconciliation — is still
`"active"`. -/
theorem C10_boundary (t : Timer) (u now : Int) (n : Nat)
    (ha : t._status = "active") (hu : t.update_time = some u)
    (heq : now - u = t._remain) :
    (t.internalUpdate (fun _ => now) n).1._status = "active" ∧
    (t.internalUpdate (fun _ => now) n).1._remain = 0 ∧
    (t.doneQ (fun _ => now) n).1 = true ∧
    (t.runningQ (fun _ => now) n).1 = false ∧
    (t.doneQ (fun _ => now) n).2.1._status = "active" := by
  have hle : ¬ (fun _ : Nat => now) n - u > t._remain := by
    simp only
    omega
  have h := Timer.iu_active_tick (fun _ => now) n t u ha hu hle
  have h0 : (t.internalUpdate (fun _ => now) n).1 =
      { t with _remain := 0, update_time := some now } := by
    rw [h]
    simp
    omega
  refine ⟨?_, ?_, ?_, ?_, ?_⟩ <;>
    simp [Timer.doneQ, Timer.runningQ, Timer.timeRemaining, h0, ha]

/-- Witness for C10: a timer with 6 seconds left read exactly 6 seconds
later. -/
theorem C10_boundary_witness :
    ((⟨10, "off", 1, "active", 6, some 104⟩ : Timer).internalUpdate
      (fun _ => 110) 0).1._status = "active" ∧
    ((⟨10, "off", 1, "active", 6, some 104⟩ : Timer).internalUpdate
      (fun _ => 110) 0).1._remain = 0 ∧
    ((⟨10, "off", 1, "active", 6, some 104⟩ : Timer).doneQ (fun _ => 110) 0).1
      = true ∧
    ((⟨10, "off", 1, "active", 6, some 104⟩ : Timer).runningQ (fun _ => 110) 0).1
      = false ∧
    ((⟨10, "off", 1, "active", 6, some 104⟩ : Timer).doneQ (fun _ => 110) 0).2.1._status
      = "active" :=
  C10_boundary ⟨10, "off", 1, "active", 6, some 104⟩ 104 110 0 rfl rfl (by decide)

/-- A clock whose first sample is 5 and whose later samples are 6: the
second read of one reconciliation lands one second after the first. -/
def clkDrift : Clock := fun i => if i = 0 then (5 : Int) else 6

/-- C8 counterexample: reading `time_remaining` of a fresh duration-5 timer
is NOT a single-sample operation: under `clkDrift` (first in-operation clock
read 5, second read 6, i.e. later) the read returns -1, while the
single-sample run at 5 returns 0 — different result and post-state, because
`_internal_update` calls `int(time.time())` up to three times. -/
theorem C8_counterexample :
    clkDrift 0 = 5 ∧ clkDrift 1 = 6 ∧ clkDrift 0 ≤ clkDrift 1 ∧
    ((mkTimer 5 "off" 1 none 0).timeRemaining clkDrift 0).1 = -1 ∧
    ((mkTimer 5 "off" 1 none 0).timeRemaining (fun _ => 5) 0).1 = 0 ∧
    ¬ ((mkTimer 5 "off" 1 none 0).timeRemaining clkDrift 0).1 =
        ((mkTimer 5 "off" 1 none 0).timeRemaining (fun _ => 5) 0).1 ∧
    ¬ ((mkTimer 5 "off" 1 none 0).timeRemaining clkDrift 0).2.1 =
        ((mkTimer 5 "off" 1 none 0).timeRemaining (fun _ => 5) 0).2.1 := by
  decide

theorem Timer.iu_fst_index_free (t : Timer) (now : Int) (n m : Nat) :
    (t.internalUpdate (fun _ => now) n).1 = (t.internalUpdate (fun _ => now) m).1 := by
  unfold Timer.internalUpdate
  cases hu : t.update_time <;>
    simp [Timer.secondsSinceCheck, hu] <;> split_ifs <;> simp_all [Timer.endT]

theorem Timer.setStatus_index_free (t : Timer) (now : Int) (n m : Nat) (s : String) :
    (t.setStatus (fun _ => now) n s).1 = (t.setStatus (fun _ => now) m s).1 ∧
    (t.setStatus (fun _ => now) n s).2.2 = (t.setStatus (fun _ => now) m s).2.2 := by
  have hiu := Timer.iu_fst_index_free t now n m
  rcases hn : t.internalUpdate (fun _ => now) n with ⟨a, b⟩
  rcases hm : t.internalUpdate (fun _ => now) m with ⟨c, d⟩
  rw [hn, hm] at hiu
  simp only at hiu
  subst hiu
  unfold Timer.setStatus
  rw [hn, hm]
  by_cases hv : s ≠ "active" ∧ s ≠ "paused" ∧ s ≠ "done"
  · simp [hv]
  · by_cases hsd : s = "done" ∨ a._status = "done"
    · simp [hv, hsd]
    · by_cases hpa : a._status = "paused" ∧ s = "active"
      · simp [hv, hsd, hpa]
      · by_cases hap : a._status = "active" ∧ s = "paused" <;>
          simp [hv, hsd, hpa, hap]

theorem Timer.setRemaining_index_free (t : Timer) (now : Int) (n m : Nat) (r : Int) :
    (t.setRemaining (fun _ => now) n r).1 = (t.setRemaining (fun _ => now) m r).1 := by
  have hiu := Timer.iu_fst_index_free t now n m
  rcases hn : t.internalUpdate (fun _ => now) n with ⟨a, b⟩
  rcases hm : t.internalUpdate (fun _ => now) m with ⟨c, d⟩
  rw [hn, hm] at hiu
  simp only at hiu
  subst hiu
  unfold Timer.setRemaining
  rw [hn, hm]
  by_cases h0 : r ≤ 0
  · simp [h0]
  · by_cases hda : a._status = "done" <;> simp [h0, hda]

theorem Timer.timeRemaining_index_free (t : Timer) (now : Int) (n m : Nat) :
    (t.timeRemaining (fun _ => now) n).1 = (t.timeRemaining (fun _ => now) m).1 ∧
    (t.timeRemaining (fun _ => now) n).2.1 = (t.timeRemaining (fun _ => now) m).2.1 := by
  have hiu := Timer.iu_fst_index_free t now n m
  constructor <;> simp [Timer.timeRemaining, hiu]

theorem Timer.startT_index_free (t : Timer) (now : Int) (n m : Nat) :
    (t.startT (fun _ => now) n).1 = (t.startT (fun _ => now) m).1 := by
  unfold Timer.startT
  split_ifs with h
  · rfl
  · simp only
    exact (Timer.setStatus_index_free _ now (n + 1) (m + 1) "active").1

theorem Timer.pauseT_index_free (t : Timer) (now : Int) (n m : Nat) :
    (t.pauseT (fun _ => now) n).1 = (t.pauseT (fun _ => now) m).1 := by
  have hiu := Timer.iu_fst_index_free t now n m
  rcases hn : t.internalUpdate (fun _ => now) n with ⟨a, b⟩
  rcases hm : t.internalUpdate (fun _ => now) m with ⟨c, d⟩
  rw [hn, hm] at hiu
  simp only at hiu
  subst hiu
  unfold Timer.pauseT
  rw [hn, hm]
  simp only
  split_ifs with h
  · rfl
  · simp only
    rw [(Timer.setStatus_index_free a now b d "paused").1]

theorem Timer.updateT_index_free (t : Timer) (now : Int) (n m : Nat)
    (r : Option Int) (s : Option String) :
    (t.updateT (fun _ => now) n r s).1 = (t.updateT (fun _ => now) m r s).1 ∧
    (t.updateT (fun _ => now) n r s).2.2 = (t.updateT (fun _ => now) m r s).2.2 := by
  cases r with
  | none =>
    cases s with
    | none => exact ⟨rfl, rfl⟩
    | some sv => simpa [Timer.updateT] using Timer.setStatus_index_free t now n m sv
  | some rv =>
    have hsr := Timer.setRemaining_index_free t now n m rv
    cases s with
    | none => simpa [Timer.updateT] using hsr
    | some sv =>
      simp only [Timer.updateT]
      rw [hsr]
      exact Timer.setStatus_index_free (t.setRemaining (fun _ => now) m rv).1 now
        (t.setRemaining (fun _ => now) n rv).2 (t.setRemaining (fun _ => now) m rv).2 sv

theorem Timer.runningQ_index_free (t : Timer) (now : Int) (n m : Nat) :
    (t.runningQ (fun _ => now) n).1 = (t.runningQ (fun _ => now) m).1 ∧
    (t.runningQ (fun _ => now) n).2.1 = (t.runningQ (fun _ => now) m).2.1 := by
  have h := Timer.timeRemaining_index_free t now n m
  constructor <;> simp [Timer.runningQ, h.1, h.2]

theorem Timer.doneQ_index_free (t : Timer) (now : Int) (n m : Nat) :
    (t.doneQ (fun _ => now) n).1 = (t.doneQ (fun _ => now) m).1 ∧
    (t.doneQ (fun _ => now) n).2.1 = (t.doneQ (fun _ => now) m).2.1 := by
  have h := Timer.timeRemaining_index_free t now n m
  constructor <;> simp [Timer.doneQ, h.1, h.2]

/-- C8 (amended): the code samples the wall clock up to three times inside
one reconciliation, so two runs whose in-operation clock reads differ can
disagree (see the counterexample); what does hold is that whenever all the
clock reads of an operation return one value `now`, the operation's result
and post-state are a function of the pre-state and `now` alone — they do not
depend on how many samples were consumed before (the sample index). -/
theorem C8_single_sample (t : Timer) (now : Int) (n m : Nat) (s : String)
    (r : Int) (or' : Option Int) (os : Option String) :
    ((t.internalUpdate (fun _ => now) n).1 = (t.internalUpdate (fun _ => now) m).1) ∧
    ((t.timeRemaining (fun _ => now) n).1 = (t.timeRemaining (fun _ => now) m).1) ∧
    ((t.timeRemaining (fun _ => now) n).2.1 = (t.timeRemaining (fun _ => now) m).2.1) ∧
    ((t.setStatus (fun _ => now) n s).1 = (t.setStatus (fun _ => now) m s).1) ∧
    ((t.setStatus (fun _ => now) n s).2.2 = (t.setStatus (fun _ => now) m s).2.2) ∧
    ((t.setRemaining (fun _ => now) n r).1 = (t.setRemaining (fun _ => now) m r).1) ∧
    ((t.startT (fun _ => now) n).1 = (t.startT (fun _ => now) m).1) ∧
    ((t.pauseT (fun _ => now) n).1 = (t.pauseT (fun _ => now) m).1) ∧
    ((t.updateT (fun _ => now) n or' os).1 = (t.updateT (fun _ => now) m or' os).1) ∧
    ((t.runningQ (fun _ => now) n).1 = (t.runningQ (fun _ => now) m).1) ∧
    ((t.doneQ (fun _ => now) n).1 = (t.doneQ (fun _ => now) m).1) :=
  ⟨Timer.iu_fst_index_free t now n m,
    (Timer.timeRemaining_index_free t now n m).1,
    (Timer.timeRemaining_index_free t now n m).2,
    (Timer.setStatus_index_free t now n m s).1,
    (Timer.setStatus_index_free t now n m s).2,
    Timer.setRemaining_index_free t now n m r,
    Timer.startT_index_free t now n m,
    Timer.pauseT_index_free t now n m,
    (Timer.updateT_index_free t now n m or' os).1,
    (Timer.runningQ_index_free t now n m).1,
    (Timer.doneQ_index_free t now n m).1⟩

/-! ## The response-code predicate `Helpers.nested_code_check` -/

mutual
/-- A Python value as stored in an API response mapping: an int, a string,
or a nested mapping. -/
inductive PyVal where
  | int : Int → PyVal
  | str : String → PyVal
  | dict : PyDict → PyVal
  | list : PyList → PyVal
/-- A Python mapping as an ordered list of key/value entries. -/
inductive PyDict where
  | nil : PyDict
  | cons : String → PyVal → PyDict → PyDict
/-- A Python list of response values (a value of `dict[str, Any]` may be a
list whose elements are themselves mappings). -/
inductive PyList where
  | nil : PyList
  | cons : PyVal → PyList → PyList
end

/-- Python's `value != 0` on a response value: false exactly on the int 0. -/
def isNonzeroVal : PyVal → Bool
  | .int m => !(m == 0)
  | .str _ => true
  | .dict _ => true
  | .list _ => true

/-- Python's `isinstance(value, dict)`. -/
def PyVal.isDictV : PyVal → Bool
  | .dict _ => true
  | _ => false

mutual
/-- `Helpers.nested_code_check`: on a mapping, scan the entries; any entry
whose key is `'code'` with a value `!= 0`, or whose value is a mapping
failing the recursive check, yields `False`; otherwise (and on any
non-mapping input) the result is `True`. -/
def nestedCodeCheck : PyVal → Bool
  | .dict d => nccEntries d
  | .int _ => true
  | .str _ => true
  | .list _ => true
/-- The entry loop of `nested_code_check`. -/
def nccEntries : PyDict → Bool
  | .nil => true
  | .cons k v rest =>
    if (k == "code" && isNonzeroVal v) || (v.isDictV && !(nestedCodeCheck v)) then
      false
    else
      nccEntries rest
end

/-- Membership of a key/value entry in a mapping. -/
inductive DictEntry : String → PyVal → PyDict → Prop where
  | head (k : String) (v : PyVal) (rest : PyDict) : DictEntry k v (.cons k v rest)
  | tail (k' : String) (v' : PyVal) {k : String} {v : PyVal} {rest : PyDict} :
      DictEntry k v rest → DictEntry k v (.cons k' v' rest)

/-- Mappings reachable from a mapping by descending through dict-valued
entries, at any depth. -/
inductive ReachDict : PyDict → PyDict → Prop where
  | refl (d : PyDict) : ReachDict d d
  | nest {d e sub : PyDict} {k : String} :
      ReachDict d e → DictEntry k (.dict sub) e → ReachDict d sub

theorem nccEntries_cons {k : String} {v : PyVal} {rest : PyDict}
    (h : nccEntries (.cons k v rest) = true) :
    (k == "code" && isNonzeroVal v) = false ∧
    (v.isDictV && !(nestedCodeCheck v)) = false ∧ nccEntries rest = true := by
  by_cases hc : ((k == "code" && isNonzeroVal v) || (v.isDictV && !(nestedCodeCheck v)))
    = true
  · rw [nccEntries, if_pos hc] at h
    exact absurd h (by simp)
  · rw [nccEntries, if_neg hc] at h
    simp only [Bool.or_eq_true, not_or] at hc
    exact ⟨by simpa using hc.1, by simpa using hc.2, h⟩

theorem nccEntries_entry {d : PyDict} {k : String} {v : PyVal}
    (hd : nccEntries d = true) (he : DictEntry k v d) :
    (k == "code" && isNonzeroVal v) = false ∧
    (v.isDictV && !(nestedCodeCheck v)) = false := by
  induction he with
  | head k v rest =>
    have h := nccEntries_cons hd
    exact ⟨h.1, h.2.1⟩
  | tail k' v' he ih =>
    exact ih (nccEntries_cons hd).2.2

theorem reachDict_ncc {top d : PyDict} (h : ReachDict top d)
    (htop : nccEntries top = true) : nccEntries d = true := by
  induction h with
  | refl => exact htop
  | nest hr he ih =>
    have h2 := (nccEntries_entry ih he).2
    simp only [PyVal.isDictV, Bool.true_and, Bool.not_eq_false'] at h2
    simpa [nestedCodeCheck] using h2

/-- Membership of a value in a Python list. -/
inductive ListElem : PyVal → PyList → Prop where
  | head (v : PyVal) (rest : PyList) : ListElem v (.cons v rest)
  | tail (v' : PyVal) {v : PyVal} {rest : PyList} :
      ListElem v rest → ListElem v (.cons v' rest)

/-- Mappings nested at any depth inside a value: the value itself when it is
a mapping, a mapping nested inside one of a mapping's entry values, or a
mapping nested inside one of a list's elements. -/
inductive NestedDictIn : PyDict → PyVal → Prop where
  | base (d : PyDict) : NestedDictIn d (.dict d)
  | viaDict {d e : PyDict} {k : String} {v : PyVal} :
      DictEntry k v e → NestedDictIn d v → NestedDictIn d (.dict e)
  | viaList {d : PyDict} {l : PyList} {v : PyVal} :
      ListElem v l → NestedDictIn d v → NestedDictIn d (.list l)

/-- The nested mapping with a single entry mapping the key `code` to the
int 1, used in the C9 counterexample. -/
def innerCodeOne : PyDict := .cons "code" (.int 1) .nil

/-- The C9 counterexample input: one entry mapping the key `a` to a
one-element list whose element is the mapping `innerCodeOne`. -/
def listWrapped : PyDict := .cons "a" (.list (.cons (.dict innerCodeOne) .nil)) .nil

/-- C9 counterexample: `nested_code_check` only recurses where
`isinstance(value, dict)` holds, so a mapping nested inside a LIST value is
never inspected: on the input mapping the key `a` to the list holding a
mapping with `code = 1`, the check returns true even though a mapping nested
(at depth two) inside the input holds a `code` key with the nonzero int 1 —
refuting the claim's "every mapping nested (at any depth) inside it". -/
theorem C9_counterexample :
    nestedCodeCheck (PyVal.dict listWrapped) = true ∧
    NestedDictIn innerCodeOne (PyVal.dict listWrapped) ∧
    DictEntry "code" (PyVal.int 1) innerCodeOne ∧
    ¬ (PyVal.int 1 = PyVal.int 0) := by
  refine ⟨by decide, ?_, DictEntry.head "code" (.int 1) .nil, ?_⟩
  · exact NestedDictIn.viaDict
      (DictEntry.head "a" (.list (.cons (.dict innerCodeOne) .nil)) .nil)
      (NestedDictIn.viaList (ListElem.head (.dict innerCodeOne) .nil)
        (NestedDictIn.base innerCodeOne))
  · intro hc
    injection hc with hm
    exact absurd hm (by decide)

/-- C9 (amended): if `nested_code_check` returns true on a mapping, then no
mapping reachable from it by descending through dict-valued entries — the
only recursion the code performs — contains a `'code'` key with a value
other than the int 0.  Mappings nested inside list values are never
inspected (see the counterexample), so the guarantee stops at the first
non-dict container. -/
theorem C9_nested_code_check (top d : PyDict) (k : String) (v : PyVal)
    (h : nestedCodeCheck (PyVal.dict top) = true) (hr : ReachDict top d)
    (he : DictEntry k v d) (hk : k = "code") : v = PyVal.int 0 := by
  have htop : nccEntries top = true := by simpa [nestedCodeCheck] using h
  have hd := reachDict_ncc hr htop
  have h1 := (nccEntries_entry hd he).1
  subst hk
  simp only [beq_self_eq_true, Bool.true_and] at h1
  cases v with
  | int m =>
    simp only [isNonzeroVal, Bool.not_eq_false'] at h1
    have : m = 0 := by simpa using h1
    rw [this]
  | str s => simp [isNonzeroVal] at h1
  | dict d' => simp [isNonzeroVal] at h1
  | list l => simp [isNonzeroVal] at h1

/-- Witness for C9: a concrete response `{code: 0, result: {code: 0}}`
passes the check, and the `code` entry of the nested reachable mapping is
the int 0. -/
theorem C9_nested_code_check_witness :
    nestedCodeCheck (PyVal.dict (.cons "code" (.int 0)
      (.cons "result" (.dict (.cons "code" (.int 0) .nil)) .nil))) = true ∧
    (PyVal.int 0 : PyVal) = PyVal.int 0 := by
  refine ⟨by decide, ?_⟩
  exact C9_nested_code_check
    (.cons "code" (.int 0) (.cons "result" (.dict (.cons "code" (.int 0) .nil)) .nil))
    (.cons "code" (.int 0) .nil) "code" (.int 0) (by decide)
    (ReachDict.nest (ReachDict.refl _)
      (DictEntry.tail "code" (.int 0) (DictEntry.head "result" _ .nil)))
    (DictEntry.head "code" (.int 0) .nil) rfl
